import Mathlib

/-!
Verification of the in-memory executor (`src/executors/inmemory.rs`).

The executor runs a candidate input against an in-process harness, detects
crashes and hangs via signal handlers, and lets pluggable observers collect
per-run feedback.  We embed the executor state, `run_target`, `place_input`,
`reset_observers`, `post_exec_observers` and the two signal handlers as pure
Lean functions; the process-wide crash-context slot
(`CURRENT_INMEMORY_EXECUTOR_PTR`) and the handler side effects are made
observable through explicit event traces.
-/

namespace LibAFL

/-- Error type of the engine.  The executor source constructs
`AflError::Empty` (a required resource is absent) and propagates errors from
`Input::serialize` and the observer steps; the enum itself lives outside the
executor file, so we model the constructors the executor and its external
interfaces need: an absent-resource error, a serialization error, and the
generic error used by the tests. -/
inductive AflError where
  | Empty (s : String)
  | Serialize (s : String)
  | Unknown (s : String)
  deriving DecidableEq, Repr

/-- Modelled from the spec: `ExitKind` (the Outcome classification) is a small
enumeration of harness outcome classifications; the only value produced
through the normal return path of this core is `Ok` ("completed normally").
Its definition lives in `executors/mod.rs`, outside the excerpted file. -/
inductive ExitKind where
  | Ok
  | Crash
  | Oom
  | Timeout
  deriving DecidableEq, Repr

instance {ε α : Type} [DecidableEq ε] [DecidableEq α] : DecidableEq (Except ε α) :=
  fun x y =>
    match x, y with
    | .ok a, .ok b =>
      if h : a = b then .isTrue (by rw [h])
      else .isFalse (fun hc => h (Except.ok.inj hc))
    | .error a, .error b =>
      if h : a = b then .isTrue (by rw [h])
      else .isFalse (fun hc => h (Except.error.inj hc))
    | .ok _, .error _ => .isFalse (fun hc => Except.noConfusion hc)
    | .error _, .ok _ => .isFalse (fun hc => Except.noConfusion hc)

/-- An observer, reduced to what one batch of `reset_observers` /
`post_exec_observers` calls can see of it: the outcome its `reset` step
returns when invoked, and the outcome its `post_exec` step returns when
invoked.  (Each step is invoked at most once per batch, so a fixed per-call
outcome is a faithful view of the trait object.) -/
structure Observer where
  resetResult : Except AflError Unit
  postExecResult : Except AflError Unit
  deriving DecidableEq, Repr

/-- The Input capability: `serialize` produces the canonical byte form or
fails; `deserialize` reconstructs state from bytes or fails.  Bytes are
modelled as `List Nat`. -/
class Input (I : Type) where
  serialize : I → Except AflError (List Nat)
  deserialize : I → List Nat → Except AflError I

/-- What a harness can observe through the `&dyn Executor<I>` reference it is
handed: the shared-reference trait methods are `cur_input()` and
`observers()` (the `&mut self` methods are not callable through a shared
reference), so the reference is exactly this read-only view. -/
structure ExecutorView (I : Type) where
  cur_input : Option I
  observers : List Observer
  deriving DecidableEq, Repr

/-- The in-memory executor: a single optional current-input slot, the ordered
observer collection, and the harness function bound at construction
(`HarnessFunction<I> = fn(&dyn Executor<I>, &[u8]) -> ExitKind`). -/
structure InMemoryExecutor (I : Type) where
  cur_input : Option I
  observers : List Observer
  harness : ExecutorView I → List Nat → ExitKind

/-- The read-only view of an executor that `run_target` passes to the harness
(the `self` argument of `(self.harness)(self, b)`). -/
def execView {I : Type} (ex : InMemoryExecutor I) : ExecutorView I :=
  ⟨ex.cur_input, ex.observers⟩

/-- Observable events of one `run_target` call, in program order:
writes to the process-wide crash-context slot
`CURRENT_INMEMORY_EXECUTOR_PTR` (set to the executor's address / reset to
null), and harness entry/exit. -/
inductive Event (I : Type) where
  | slotSet
  | harnessEnter (r : ExecutorView I) (b : List Nat)
  | harnessExit (k : ExitKind)
  | slotClear
  deriving DecidableEq, Repr

/-- Result of one `run_target` call: the returned value, the executor state
after the call (the code writes no field of `self`), and the event trace. -/
structure RunOutcome (I : Type) where
  result : Except AflError ExitKind
  final : InMemoryExecutor I
  events : List (Event I)

/-- Embedding of `InMemoryExecutor::run_target`:
match on `cur_input` (absent: return `AflError::Empty("cur_input")` at once,
with no events); serialize the input; set the crash-context slot to `self`;
match on the serialization result (ok: call the harness with `self` and the
bytes; err: keep the error); clear the slot; return. -/
def run_target {I : Type} [Input I] (ex : InMemoryExecutor I) : RunOutcome I :=
  match ex.cur_input with
  | none => ⟨.error (.Empty "cur_input"), ex, []⟩
  | some i =>
    match Input.serialize i with
    | .ok b =>
      ⟨.ok (ex.harness (execView ex) b), ex,
        [.slotSet, .harnessEnter (execView ex) b,
         .harnessExit (ex.harness (execView ex) b), .slotClear]⟩
    | .error e => ⟨.error e, ex, [.slotSet, .slotClear]⟩

/-- Embedding of `InMemoryExecutor::place_input`: store the input in the slot
and return `Ok(())`. -/
def place_input {I : Type} (ex : InMemoryExecutor I) (input : I) :
    Except AflError Unit × InMemoryExecutor I :=
  (.ok (), { ex with cur_input := some input })

/-- Embedding of `InMemoryExecutor::add_observer`: append to the ordered
collection. -/
def add_observer {I : Type} (ex : InMemoryExecutor I) (o : Observer) :
    InMemoryExecutor I :=
  { ex with observers := ex.observers ++ [o] }

/-- Effect of one event on the crash-context slot (`true` = non-null). -/
def slotStep {I : Type} (s : Bool) : Event I → Bool
  | .slotSet => true
  | .slotClear => false
  | .harnessEnter _ _ => s
  | .harnessExit _ => s

/-- Slot state after a list of events, starting from null (`false`). -/
def slotAfter {I : Type} (tr : List (Event I)) : Bool :=
  tr.foldl slotStep false

/-- Slot state at position `p` of a trace (between event `p - 1` and event
`p`; position `0` is before the first event). -/
def slotAt {I : Type} (tr : List (Event I)) (p : Nat) : Bool :=
  slotAfter (tr.take p)

/-- Is an event a harness entry? -/
def isEnter {I : Type} : Event I → Bool
  | .harnessEnter _ _ => true
  | _ => false

/-- Is an event a harness exit? -/
def isExit {I : Type} : Event I → Bool
  | .harnessExit _ => true
  | _ => false

/-- Number of harness entries in a trace. -/
def entersIn {I : Type} (tr : List (Event I)) : Nat :=
  tr.countP isEnter

/-- Number of harness exits in a trace. -/
def exitsIn {I : Type} (tr : List (Event I)) : Nat :=
  tr.countP isExit

/-- Position `p` of the trace lies strictly between a harness entry and the
matching harness exit: some entered harness call has not yet exited. -/
def harnessInFlight {I : Type} (tr : List (Event I)) (p : Nat) : Bool :=
  exitsIn (tr.take p) < entersIn (tr.take p)

/-- Does the trace set the crash-context slot at some point (publish it)? -/
def setsSlot {I : Type} (tr : List (Event I)) : Bool :=
  tr.any (fun e => match e with | .slotSet => true | _ => false)

/-- Does the trace invoke the harness? -/
def harnessInvoked {I : Type} (tr : List (Event I)) : Bool :=
  tr.any isEnter

/-- Concrete input type for counterexamples and witnesses: `good bs`
serializes to `bs`, `bad m` fails to serialize. -/
inductive TestInput where
  | good (bs : List Nat)
  | bad (m : String)
  deriving DecidableEq, Repr

instance : Input TestInput where
  serialize i :=
    match i with
    | .good bs => .ok bs
    | .bad m => .error (.Serialize m)
  deserialize i _ := .ok i

/-- Executor holding an input whose serialization fails. -/
def badSerEx : InMemoryExecutor TestInput :=
  ⟨some (.bad "no bytes"), [], fun _ _ => .Ok⟩

/-- Executor holding a 3-byte input that serializes successfully. -/
def goodEx : InMemoryExecutor TestInput :=
  ⟨some (.good [1, 2, 3]), [], fun _ _ => .Ok⟩

/-- Executor with no input loaded. -/
def emptyEx : InMemoryExecutor TestInput :=
  ⟨none, [], fun _ _ => .Ok⟩

/-- Embedding of the loop body of `InMemoryExecutor::reset_observers`,
threading the index of the next observer and recording the indices of the
observers whose `reset` is invoked:
`for observer in &mut self.observers { observer.reset()?; }` invokes `reset`
and, via `?`, returns the error immediately on failure. -/
def reset_observers_go (obs : List Observer) (i : Nat) :
    Except AflError Unit × List Nat :=
  match obs with
  | [] => (.ok (), [])
  | o :: rest =>
    match o.resetResult with
    | .ok _ =>
      let r := reset_observers_go rest (i + 1)
      (r.1, i :: r.2)
    | .error e => (.error e, [i])

/-- Embedding of `InMemoryExecutor::reset_observers`: the for-loop over the
observers with an early return on the first `reset` failure, then `Ok(())`.
Returns the result and the indices, in invocation order, of the observers
whose `reset` step was invoked. -/
def reset_observers (obs : List Observer) : Except AflError Unit × List Nat :=
  reset_observers_go obs 0

/-- Embedding of the iterator chain of `InMemoryExecutor::post_exec_observers`,
threading the fold accumulator and recording invoked indices:
`.map(|x| x.post_exec()).fold(Ok(()), |acc, x| if x.is_err() { x } else { acc })`
invokes `post_exec` on every observer in order as the fold consumes the lazy
map, and an erroneous step result replaces the accumulator. -/
def post_exec_observers_go (obs : List Observer) (i : Nat)
    (acc : Except AflError Unit) : Except AflError Unit × List Nat :=
  match obs with
  | [] => (acc, [])
  | o :: rest =>
    let x := o.postExecResult
    let acc2 := match x with | .error _ => x | .ok _ => acc
    let r := post_exec_observers_go rest (i + 1) acc2
    (r.1, i :: r.2)

/-- Embedding of `InMemoryExecutor::post_exec_observers`.  Returns the fold's
result and the indices, in invocation order, of the observers whose
`post_exec` step was invoked. -/
def post_exec_observers (obs : List Observer) :
    Except AflError Unit × List Nat :=
  post_exec_observers_go obs 0 (.ok ())

/-- Spec-side characterization, for comparison with the code: the first error
in a list of step results, else success ("first-error-wins"). -/
def specFirstError (l : List (Except AflError Unit)) : Except AflError Unit :=
  match l with
  | [] => .ok ()
  | x :: rest =>
    match x with
    | .error e => .error e
    | .ok _ => specFirstError rest

/-- Characterization of the fold in `post_exec_observers`: the last error in
a list of step results, else success. -/
def specLastError (l : List (Except AflError Unit)) : Except AflError Unit :=
  match l with
  | [] => .ok ()
  | x :: rest =>
    match specLastError rest with
    | .error e => .error e
    | .ok _ => x

/-- Number of observers whose `reset` the short-circuiting loop reaches: up to
and including the first one whose `reset` fails, else all of them. -/
def resetReachCount (obs : List Observer) : Nat :=
  match obs with
  | [] => 0
  | o :: rest =>
    match o.resetResult with
    | .error _ => 1
    | .ok _ => resetReachCount rest + 1

/-- Observable actions of a signal handler, in program order: a `dbg!` log
line, a `println!` line, a `stdout().flush()`, and `process::abort()`. -/
inductive HandlerAction where
  | logged (msg : String)
  | printed (msg : String)
  | flushed
  | aborted
  deriving DecidableEq, Repr

/-- Embedding of `libaflrs_executor_inmem_handle_crash`, as the sequence of
actions it performs given whether the crash-context slot is non-null and the
faulting address from `siginfo`: if the slot is null, print the
unattributed-crash line; in every case print "Child crashed!" and flush; the
handler then returns (it neither aborts nor re-raises). -/
def libaflrs_executor_inmem_handle_crash (slotNonNull : Bool) (addr : Nat) :
    List HandlerAction :=
  (if slotNonNull then []
   else [.printed ("We died accessing addr " ++ toString addr ++
          ", but are not in client...")]) ++
  [.printed "Child crashed!", .flushed]

/-- Embedding of `libaflrs_executor_inmem_handle_timeout`: always log the
delivery; if the crash-context slot is null, log that nothing is in flight
and return; otherwise print the timeout report, flush, and abort the
process. -/
def libaflrs_executor_inmem_handle_timeout (slotNonNull : Bool) :
    List HandlerAction :=
  .logged "TIMEOUT/SIGUSR2 received" ::
  (if slotNonNull then [.printed "Timeout in fuzz run.", .flushed, .aborted]
   else [.logged "TIMEOUT or SIGUSR2 happened, but currently not fuzzing."])

/-- Is a handler action a log line (a `dbg!`)? -/
def isLog (a : HandlerAction) : Bool :=
  match a with
  | .logged _ => true
  | _ => false

/-- C5: whenever the executor's current-input slot is empty, `run_target`
fails with `AflError::Empty "cur_input"`, never invokes the harness, never
writes the crash-context slot, and leaves the executor state unchanged. -/
theorem C5_empty_input {I : Type} [Input I] (ex : InMemoryExecutor I)
    (h : ex.cur_input = none) :
    (run_target ex).result = .error (.Empty "cur_input") ∧
    harnessInvoked (run_target ex).events = false ∧
    setsSlot (run_target ex).events = false ∧
    (run_target ex).final = ex := by
  simp [run_target, h, harnessInvoked, setsSlot]

/-- Witness for C5 at the concrete executor with no input loaded. -/
theorem C5_empty_input_witness :
    (run_target emptyEx).result = .error (.Empty "cur_input") ∧
    harnessInvoked (run_target emptyEx).events = false ∧
    setsSlot (run_target emptyEx).events = false ∧
    (run_target emptyEx).final = emptyEx :=
  C5_empty_input emptyEx rfl

/-- C6: for every loaded input whose serialization succeeds, `run_target`
invokes the harness exactly once, passing it the executor reference and
exactly the serialized bytes, and returns `Ok` of the `ExitKind` the harness
returned. -/
theorem C6_harness_invocation {I : Type} [Input I] (ex : InMemoryExecutor I)
    (i : I) (b : List Nat) (hi : ex.cur_input = some i)
    (hs : Input.serialize i = .ok b) :
    (run_target ex).result = .ok (ex.harness (execView ex) b) ∧
    entersIn (run_target ex).events = 1 ∧
    Event.harnessEnter (execView ex) b ∈ (run_target ex).events := by
  simp [run_target, hi, hs, entersIn, isEnter]

/-- Witness for C6 at a concrete executor with a 3-byte input. -/
theorem C6_harness_invocation_witness :
    (run_target goodEx).result = .ok (goodEx.harness (execView goodEx) [1, 2, 3]) ∧
    entersIn (run_target goodEx).events = 1 ∧
    Event.harnessEnter (execView goodEx) [1, 2, 3] ∈ (run_target goodEx).events :=
  C6_harness_invocation goodEx (.good [1, 2, 3]) [1, 2, 3] rfl rfl

/-- C7: `place_input` always succeeds, and afterwards the current-input slot
holds exactly the given input (any prior occupant is discarded); the
observers and harness binding are untouched. -/
theorem C7_place_input {I : Type} (ex : InMemoryExecutor I) (i : I) :
    (place_input ex i).1 = .ok () ∧
    (place_input ex i).2.cur_input = some i ∧
    (place_input ex i).2.observers = ex.observers ∧
    (place_input ex i).2.harness = ex.harness :=
  ⟨rfl, rfl, rfl, rfl⟩

/-- C8: the timeout handler, when the crash-context slot is null, only logs
and returns (every action is a log, no abort); when the slot is non-null, it
emits the timed-out report, flushes, and terminates via abort — it aborts
exactly when the slot is non-null. -/
theorem C8_timeout_handler :
    libaflrs_executor_inmem_handle_timeout false =
      [.logged "TIMEOUT/SIGUSR2 received",
       .logged "TIMEOUT or SIGUSR2 happened, but currently not fuzzing."] ∧
    (libaflrs_executor_inmem_handle_timeout false).all isLog = true ∧
    HandlerAction.aborted ∉ libaflrs_executor_inmem_handle_timeout false ∧
    libaflrs_executor_inmem_handle_timeout true =
      [.logged "TIMEOUT/SIGUSR2 received", .printed "Timeout in fuzz run.",
       .flushed, .aborted] ∧
    HandlerAction.aborted ∈ libaflrs_executor_inmem_handle_timeout true := by
  refine ⟨rfl, rfl, ?_, rfl, ?_⟩
  · simp [libaflrs_executor_inmem_handle_timeout]
  · simp [libaflrs_executor_inmem_handle_timeout]

/-- C9: for a harness that returns normally, a successful `run_target` leaves
the executor unchanged — same current input, observers and harness binding —
and the crash-context slot is null again after the call. -/
theorem C9_run_frame {I : Type} [Input I] (ex : InMemoryExecutor I)
    (i : I) (b : List Nat) (hi : ex.cur_input = some i)
    (hs : Input.serialize i = .ok b) :
    (run_target ex).final = ex ∧
    (run_target ex).final.cur_input = some i ∧
    (run_target ex).final.observers = ex.observers ∧
    (run_target ex).final.harness = ex.harness ∧
    slotAfter (run_target ex).events = false ∧
    (run_target ex).result = .ok (ex.harness (execView ex) b) := by
  refine ⟨?_, ?_, ?_, ?_, ?_, ?_⟩ <;>
    simp [run_target, hi, hs, slotAfter, slotStep]

/-- Witness for C9: Scenario A — a 3-byte input is loaded, the run succeeds,
and the slot still holds the same 3 bytes afterwards. -/
theorem C9_run_frame_witness :
    (run_target goodEx).final = goodEx ∧
    (run_target goodEx).final.cur_input = some (.good [1, 2, 3]) ∧
    (run_target goodEx).final.observers = goodEx.observers ∧
    (run_target goodEx).final.harness = goodEx.harness ∧
    slotAfter (run_target goodEx).events = false ∧
    (run_target goodEx).result = .ok (goodEx.harness (execView goodEx) [1, 2, 3]) :=
  C9_run_frame goodEx (.good [1, 2, 3]) [1, 2, 3] rfl rfl

/-- C10: the crash handler always prints the "Child crashed!" report and
flushes, for every delivery; when the slot is null it additionally prints
the unattributed-crash line first; it never aborts and returns in every
case. -/
theorem C10_crash_handler (s : Bool) (addr : Nat) :
    HandlerAction.printed "Child crashed!" ∈
      libaflrs_executor_inmem_handle_crash s addr ∧
    HandlerAction.flushed ∈ libaflrs_executor_inmem_handle_crash s addr ∧
    HandlerAction.aborted ∉ libaflrs_executor_inmem_handle_crash s addr ∧
    libaflrs_executor_inmem_handle_crash true addr =
      [.printed "Child crashed!", .flushed] ∧
    libaflrs_executor_inmem_handle_crash false addr =
      [.printed ("We died accessing addr " ++ toString addr ++
         ", but are not in client..."),
       .printed "Child crashed!", .flushed] := by
  cases s <;> simp [libaflrs_executor_inmem_handle_crash]

/-- Claim C3 as stated: `reset_observers` invokes every observer's reset
exactly once (all indices, in registration order), even after a failure, and
returns the first failure if any. -/
def resetAllInvokedFirstError (obs : List Observer) : Prop :=
  (reset_observers obs).2 = List.range obs.length ∧
  (reset_observers obs).1 = specFirstError (obs.map Observer.resetResult)

/-- Two observers: the first one's reset fails, the second one's succeeds. -/
def failThenOkObs : List Observer :=
  [⟨.error (.Unknown "first reset fails"), .ok ()⟩, ⟨.ok (), .ok ()⟩]

/-- C3 counterexample: with a failing reset registered before a healthy
observer, `reset_observers` never invokes the second observer's reset (the
`?` operator returns early), refuting the all-invoked part of the claim. -/
theorem C3_reset_counterexample : ¬ resetAllInvokedFirstError failThenOkObs := by
  intro h
  exact absurd h.1 (by decide)

/-- Unfolding lemma: the reset loop starting at index `i` returns the first
reset error (else success) and invokes exactly the observers up to and
including the first failing one. -/
theorem reset_observers_go_eq (obs : List Observer) (i : Nat) :
    reset_observers_go obs i =
      (specFirstError (obs.map Observer.resetResult),
       List.range' i (resetReachCount obs)) := by
  induction obs generalizing i with
  | nil => simp [reset_observers_go, specFirstError, resetReachCount]
  | cons o rest ih =>
    cases hr : o.resetResult with
    | ok u =>
      simp [reset_observers_go, specFirstError, resetReachCount, hr, ih,
        List.range']
    | error e =>
      simp [reset_observers_go, specFirstError, resetReachCount, hr,
        List.range']

/-- C3 amended: `reset_observers` invokes observers' resets in registration
order only up to and including the first failing one (observers registered
after a failing reset are not invoked), and returns the first failure if any
reset failed, otherwise success. -/
theorem C3_reset_short_circuit (obs : List Observer) :
    (reset_observers obs).1 = specFirstError (obs.map Observer.resetResult) ∧
    (reset_observers obs).2 = List.range (resetReachCount obs) ∧
    resetReachCount obs ≤ obs.length := by
  refine ⟨?_, ?_, ?_⟩
  · rw [reset_observers, reset_observers_go_eq]
  · rw [reset_observers, reset_observers_go_eq, List.range_eq_range']
  · induction obs with
    | nil => simp [resetReachCount]
    | cons o rest ih =>
      cases hr : o.resetResult with
      | ok u =>
        simp only [resetReachCount, hr, List.length_cons]
        omega
      | error e =>
        simp only [resetReachCount, hr, List.length_cons]
        omega

/-- Claim C4 as stated: `post_exec_observers` invokes every observer's
post-exec exactly once, in registration order, regardless of earlier
failures, and returns the first failure if any occurred. -/
def postExecAllInvokedFirstError (obs : List Observer) : Prop :=
  (post_exec_observers obs).2 = List.range obs.length ∧
  (post_exec_observers obs).1 = specFirstError (obs.map Observer.postExecResult)

/-- Two observers whose post-exec steps fail with distinct errors. -/
def twoFailObs : List Observer :=
  [⟨.ok (), .error (.Unknown "first post fail")⟩,
   ⟨.ok (), .error (.Unknown "second post fail")⟩]

/-- C4 counterexample: with two failing post-exec steps, the fold
`if x.is_err() { x } else { acc }` keeps the LAST error, so the first
failure is not the one returned, refuting the first-error part of the
claim. -/
theorem C4_post_exec_counterexample : ¬ postExecAllInvokedFirstError twoFailObs := by
  intro h
  exact absurd h.2 (by decide)

/-- Unfolding lemma: the post-exec fold starting at index `i` with
accumulator `acc` invokes every remaining observer and ends with the last
error among their results, else the incoming accumulator. -/
theorem post_exec_observers_go_eq (obs : List Observer) (i : Nat)
    (acc : Except AflError Unit) :
    post_exec_observers_go obs i acc =
      (match specLastError (obs.map Observer.postExecResult) with
       | .error e => .error e
       | .ok _ => acc,
       List.range' i obs.length) := by
  induction obs generalizing i acc with
  | nil => simp [post_exec_observers_go, specLastError]
  | cons o rest ih =>
    cases hL : specLastError (rest.map Observer.postExecResult) with
    | error e =>
      simp [post_exec_observers_go, specLastError, ih, hL, List.range']
    | ok u =>
      cases hx : o.postExecResult with
      | ok v =>
        simp [post_exec_observers_go, specLastError, ih, hL, hx, List.range']
      | error e =>
        simp [post_exec_observers_go, specLastError, ih, hL, hx, List.range']

/-- C4 amended: `post_exec_observers` invokes every registered observer's
post-exec exactly once, in registration order, regardless of earlier
failures, and returns the LAST failure if any occurred (the fold overwrites
the accumulator with each later error), otherwise success. -/
theorem C4_post_exec_last_error (obs : List Observer) :
    (post_exec_observers obs).2 = List.range obs.length ∧
    (post_exec_observers obs).1 = specLastError (obs.map Observer.postExecResult) := by
  constructor
  · rw [post_exec_observers, post_exec_observers_go_eq, List.range_eq_range']
  · rw [post_exec_observers, post_exec_observers_go_eq]
    cases hL : specLastError (obs.map Observer.postExecResult) with
    | error e => simp
    | ok u => cases u; simp

/-- Claim C2 as stated: when serialization of the loaded input fails,
`run_target` returns exactly that error, never invokes the harness, and
never sets the crash-context slot. -/
def serializeErrorNoPublish {I : Type} [Input I] (ex : InMemoryExecutor I) : Prop :=
  ∀ i e, ex.cur_input = some i → Input.serialize i = .error e →
    (run_target ex).result = .error e ∧
    harnessInvoked (run_target ex).events = false ∧
    setsSlot (run_target ex).events = false

/-- C2 counterexample: the code sets the crash-context slot BEFORE matching
on the serialization result, so with an input whose serialization fails the
slot is still published (and then cleared), refuting the never-published
part of the claim. -/
theorem C2_serialize_error_counterexample : ¬ serializeErrorNoPublish badSerEx := by
  intro h
  have h2 := (h (.bad "no bytes") (.Serialize "no bytes") rfl rfl).2.2
  exact absurd h2 (by decide)

/-- C2 amended: when serialization of the loaded input fails, `run_target`
returns exactly that error and never invokes the harness, but the
crash-context slot IS transiently published: the trace is exactly a slot-set
followed by a slot-clear, so the slot is null again when the call returns,
and the executor state is unchanged. -/
theorem C2_serialize_error_propagation {I : Type} [Input I]
    (ex : InMemoryExecutor I) (i : I) (e : AflError)
    (hi : ex.cur_input = some i) (hs : Input.serialize i = .error e) :
    (run_target ex).result = .error e ∧
    harnessInvoked (run_target ex).events = false ∧
    (run_target ex).events = [.slotSet, .slotClear] ∧
    slotAfter (run_target ex).events = false ∧
    (run_target ex).final = ex := by
  refine ⟨?_, ?_, ?_, ?_, ?_⟩ <;>
    simp [run_target, hi, hs, harnessInvoked, isEnter, slotAfter, slotStep]

/-- Witness for C2 (amended) at the concrete executor whose input fails to
serialize. -/
theorem C2_serialize_error_propagation_witness :
    (run_target badSerEx).result = .error (.Serialize "no bytes") ∧
    harnessInvoked (run_target badSerEx).events = false ∧
    (run_target badSerEx).events = [.slotSet, .slotClear] ∧
    slotAfter (run_target badSerEx).events = false ∧
    (run_target badSerEx).final = badSerEx :=
  C2_serialize_error_propagation badSerEx (.bad "no bytes")
    (.Serialize "no bytes") rfl rfl

/-- Claim C1 as stated: at every point of a `run_target` call, the
crash-context slot is non-null exactly when the call is strictly between
harness entry and harness exit. -/
def slotOnlyDuringHarness {I : Type} [Input I] (ex : InMemoryExecutor I) : Prop :=
  ∀ p, p ≤ (run_target ex).events.length →
    (slotAt (run_target ex).events p = true ↔
      harnessInFlight (run_target ex).events p = true)

/-- C1 counterexample: with an input whose serialization fails, the slot is
non-null between the set and the clear (position 1 of the trace) although no
harness entry ever happens, refuting the only-during-harness part of the
claim. -/
theorem C1_slot_counterexample : ¬ slotOnlyDuringHarness badSerEx := by
  intro h
  have h1 := (h 1 (by decide)).mp (by decide)
  exact absurd h1 (by decide)

/-- C1 amended: within one `run_target` call the slot is null at entry and
at exit, and is non-null exactly at the positions strictly inside the
publication window — which exists exactly when an input is loaded (even when
serialization fails and the harness is never entered); whenever the harness
is in flight the slot is non-null. -/
theorem C1_slot_window {I : Type} [Input I] (ex : InMemoryExecutor I) (p : Nat)
    (hp : p ≤ (run_target ex).events.length) :
    (slotAt (run_target ex).events p = true ↔
      (ex.cur_input.isSome = true ∧ 0 < p ∧
        p < (run_target ex).events.length)) ∧
    (harnessInFlight (run_target ex).events p = true →
      slotAt (run_target ex).events p = true) ∧
    slotAt (run_target ex).events 0 = false ∧
    slotAt (run_target ex).events (run_target ex).events.length = false := by
  rcases hci : ex.cur_input with _ | i
  · simp only [run_target, hci] at hp ⊢
    simp only [List.length_nil, Nat.le_zero] at hp
    subst hp
    simp [slotAt, slotAfter, harnessInFlight, entersIn, exitsIn]
  · cases hs : Input.serialize i with
    | ok b =>
      simp only [run_target, hci, hs] at hp ⊢
      simp only [List.length_cons, List.length_nil] at hp ⊢
      interval_cases p <;>
        simp [slotAt, slotAfter, slotStep, harnessInFlight, entersIn,
          exitsIn, isEnter, isExit, hci]
    | error e =>
      simp only [run_target, hci, hs] at hp ⊢
      simp only [List.length_cons, List.length_nil] at hp ⊢
      interval_cases p <;>
        simp [slotAt, slotAfter, slotStep, harnessInFlight, entersIn,
          exitsIn, isEnter, isExit, hci]

/-- Witness for C1 (amended) at a concrete successful run, at the position
where the harness is in flight. -/
theorem C1_slot_window_witness :
    (slotAt (run_target goodEx).events 2 = true ↔
      (goodEx.cur_input.isSome = true ∧ 0 < 2 ∧
        2 < (run_target goodEx).events.length)) ∧
    (harnessInFlight (run_target goodEx).events 2 = true →
      slotAt (run_target goodEx).events 2 = true) ∧
    slotAt (run_target goodEx).events 0 = false ∧
    slotAt (run_target goodEx).events (run_target goodEx).events.length = false :=
  C1_slot_window goodEx 2 (by decide)

end LibAFL
